import Mathlib

/-!
Shallow embedding of `awx/ui_next/src/screens/Credential/CredentialList/CredentialList.jsx`
(the AWX credential list screen) together with the query-string and request
collaborators that the component consumes.

The component is UI glue: it fetches a page of credentials plus the permitted
actions, keeps a local selection set, deletes the selected credentials, and
adjusts pagination afterwards.  Network calls are modelled as explicit
`Except`-valued outcomes supplied as inputs; React state updates become pure
state-transition functions.
-/

namespace CredentialList

/-- An opaque error raised by a backend call (`CredentialsAPI.read`,
`readOptions` or `destroy`).  Only its identity matters to the component. -/
structure ApiError where
  code : Nat
deriving DecidableEq, Repr

/-- A credential record.  The component only ever inspects `id`; `name`
stands for all the other fields that are passed through untouched. -/
structure Credential where
  id : Nat
  name : String
deriving DecidableEq, Repr

/-! ### Query encoder/decoder (`@util/qs`)

Modelled from the spec: the `qs` utility module is not part of the source
slice (only its call sites are).  Per the spec, `parseQueryString` fills
unspecified fields from the config defaults, `encodeNonDefaultQueryString`
omits fields equal to their default, and `replaceParams` is a pure override
of named fields.  The raw query string is modelled as an association list of
namespaced keys to typed values; percent-encoding and decimal rendering of
integers are below the abstraction level of the spec's contract. -/

/-- A value carried by one query-string parameter. -/
inductive QSValue where
  | int : Nat → QSValue
  | str : String → QSValue
deriving DecidableEq, Repr

/-- The raw query string, as an association list of key/value pairs. -/
def RawQuery : Type := List (String × QSValue)

instance : DecidableEq RawQuery := by
  unfold RawQuery
  infer_instance

instance : Repr RawQuery := by
  unfold RawQuery
  infer_instance

/-- The structured pagination/sort descriptor round-tripped through the URL. -/
structure QueryDescriptor where
  page : Nat
  page_size : Nat
  order_by : String
deriving DecidableEq, Repr

/-- Configuration for the query-string codec: a key namespace and the
default descriptor. -/
structure QSConfig where
  ns : String
  defaults : QueryDescriptor
deriving DecidableEq, Repr

/-- Modelled from the spec: `getQSConfig(namespace, defaults)` builds the
codec configuration used by the screen. -/
def getQSConfig (ns : String) (defaults : QueryDescriptor) : QSConfig :=
  { ns := ns, defaults := defaults }

/-- The screen's query-string configuration:
`getQSConfig('credential', { page: 1, page_size: 20, order_by: 'name' })`. -/
def QS_CONFIG : QSConfig :=
  getQSConfig "credential" { page := 1, page_size := 20, order_by := "name" }

/-- The namespaced query-string key for a descriptor field. -/
def qsKey (config : QSConfig) (field : String) : String :=
  config.ns ++ "." ++ field

/-- Modelled from the spec: `parseQueryString(config, rawQueryString)`
decodes the descriptor from the raw query string, filling every unspecified
(or wrongly typed) field from the config defaults. -/
def parseQueryString (config : QSConfig) (raw : RawQuery) : QueryDescriptor :=
  { page :=
      match List.lookup (qsKey config "page") raw with
      | some (QSValue.int n) => n
      | _ => config.defaults.page
    page_size :=
      match List.lookup (qsKey config "page_size") raw with
      | some (QSValue.int n) => n
      | _ => config.defaults.page_size
    order_by :=
      match List.lookup (qsKey config "order_by") raw with
      | some (QSValue.str s) => s
      | _ => config.defaults.order_by }

/-- Modelled from the spec: `encodeNonDefaultQueryString(config, descriptor)`
encodes the descriptor back into a raw query string, omitting every field
that equals its default. -/
def encodeNonDefaultQueryString (config : QSConfig) (d : QueryDescriptor) :
    RawQuery :=
  (if d.page = config.defaults.page then [] else
    [(qsKey config "page", QSValue.int d.page)]) ++
  (if d.page_size = config.defaults.page_size then [] else
    [(qsKey config "page_size", QSValue.int d.page_size)]) ++
  (if d.order_by = config.defaults.order_by then [] else
    [(qsKey config "order_by", QSValue.str d.order_by)])

/-- A partial descriptor: the second argument of `replaceParams`. -/
structure ParamsPatch where
  page : Option Nat := none
  page_size : Option Nat := none
  order_by : Option String := none
deriving DecidableEq, Repr

/-- Modelled from the spec: `replaceParams(descriptor, partial)` overrides
the named fields and leaves the rest untouched, without mutating its input. -/
def replaceParams (d : QueryDescriptor) (p : ParamsPatch) : QueryDescriptor :=
  { page := p.page.getD d.page
    page_size := p.page_size.getD d.page_size
    order_by := p.order_by.getD d.order_by }

/-! ### Selection state and derived flags (source lines 100-115) -/

/-- `handleSelectAll(isSelected)`: `setSelected(isSelected ? [...credentials] : [])`. -/
def handleSelectAll (credentials : List Credential) (isSelected : Bool) :
    List Credential :=
  if isSelected then credentials else []

/-- `handleSelect(row)`: if some selected item has `row`'s id, filter all such
items out, otherwise append `row` to the selection. -/
def handleSelect (selected : List Credential) (row : Credential) :
    List Credential :=
  if selected.any (fun s => s.id == row.id) then
    selected.filter (fun s => !(s.id == row.id))
  else
    selected ++ [row]

/-- `isAllSelected`: `selected.length > 0 && selected.length === credentials.length`. -/
def isAllSelected (selected credentials : List Credential) : Bool :=
  decide (selected.length > 0) && selected.length == credentials.length

/-- `canAdd`: `actions && Object.prototype.hasOwnProperty.call(actions, 'POST')`.
The actions mapping is modelled by its key set; `none` is an absent mapping. -/
def canAdd (actions : Option (List String)) : Bool :=
  match actions with
  | none => false
  | some keys => keys.contains "POST"

/-! ### Request workflows (`useRequest`, source lines 36-73)

Network calls are modelled by their outcomes, supplied as explicit
`Except ApiError` inputs.  `Promise.all` is the fan-out/fan-in combinator:
it resolves with all values when every constituent resolves, and rejects
with a constituent's rejection as soon as one rejects. -/

/-- Fan-in of one settled outcome with the aggregate of the rest: the
aggregate resolves only if both sides resolve, and a rejection on either
side rejects the aggregate. -/
def promiseCombine {α : Type} (o : Except ApiError α)
    (rest : Except ApiError (List α)) : Except ApiError (List α) :=
  match o, rest with
  | Except.ok a, Except.ok as => Except.ok (a :: as)
  | Except.error e, _ => Except.error e
  | Except.ok _, Except.error e => Except.error e

/-- `Promise.all` over a list of settled outcomes. -/
def promiseAll {α : Type} : List (Except ApiError α) → Except ApiError (List α)
  | [] => Except.ok []
  | o :: os => promiseCombine o (promiseAll os)

/-- `Promise.all` over a pair of settled outcomes (the two reads of the
list-fetch workflow). -/
def promiseAllPair {α β : Type} (a : Except ApiError α) (b : Except ApiError β) :
    Except ApiError (α × β) :=
  match a, b with
  | Except.ok x, Except.ok y => Except.ok (x, y)
  | Except.error e, _ => Except.error e
  | Except.ok _, Except.error e => Except.error e

/-- Payload of a successful `CredentialsAPI.read(params)`:
`{ data: { results, count } }`. -/
structure CredsData where
  results : List Credential
  count : Nat
deriving DecidableEq, Repr

/-- Payload of a successful `CredentialsAPI.readOptions()`:
`{ data: { actions } }`, with the actions mapping modelled by its key set. -/
structure ActionsData where
  actions : Option (List String)
deriving DecidableEq, Repr

/-- The merged view model `{ credentials, credentialCount, actions }`. -/
structure ViewModel where
  credentials : List Credential
  credentialCount : Nat
  actions : Option (List String)
deriving DecidableEq, Repr

/-- The initial view model passed to `useRequest`:
`{ credentials: [], credentialCount: 0, actions: {} }`. -/
def initialViewModel : ViewModel :=
  { credentials := [], credentialCount := 0, actions := some [] }

/-- The observable state of one `useRequest` hook: the last successful
result, the last error, and the loading flag. -/
structure RequestState (α : Type) where
  result : α
  error : Option ApiError
  isLoading : Bool
deriving DecidableEq, Repr

/-- Modelled from the spec: how a settled request updates the `useRequest`
state.  On success the result is replaced wholesale and the error cleared;
on failure the error is recorded and the result left unmodified.  Either
way the loading flag drops. -/
def applyRequest {α : Type} (st : RequestState α) (outcome : Except ApiError α) :
    RequestState α :=
  match outcome with
  | Except.ok r => { result := r, error := none, isLoading := false }
  | Except.error e => { st with error := some e, isLoading := false }

/-- The body of the list-fetch callback: `Promise.all` of the two reads,
merged into the view model on success. -/
def fetchCredentials (read : Except ApiError CredsData)
    (readOptions : Except ApiError ActionsData) : Except ApiError ViewModel :=
  match promiseAllPair read readOptions with
  | Except.ok (creds, credActions) =>
    Except.ok
      { credentials := creds.results
        credentialCount := creds.count
        actions := credActions.actions }
  | Except.error e => Except.error e

/-- The delete requests issued by the deletion workflow:
`selected.map(({ id }) => CredentialsAPI.destroy(id))` issues one request
per selected credential, keyed by its id. -/
def issuedDeleteRequests (selected : List Credential) : List Nat :=
  selected.map (fun c => c.id)

/-- The body of the deletion callback:
`Promise.all(selected.map(({ id }) => CredentialsAPI.destroy(id)))`, with
`destroy` giving the outcome of the delete call for each id. -/
def deleteCredentials (destroy : Nat → Except ApiError Unit)
    (selected : List Credential) : Except ApiError (List Unit) :=
  promiseAll ((issuedDeleteRequests selected).map destroy)

/-! ### Deletion handler and pagination adjustment (source lines 81-98) -/

/-- The side effect chosen by `adjustPagination`: either push a new query
string onto history (triggering a fetch via the location-change effect), or
explicitly re-invoke `fetchCredentials` for the current page. -/
inductive PaginationEffect where
  | navigate : RawQuery → PaginationEffect
  | refetch : PaginationEffect
deriving DecidableEq, Repr

/-- `adjustPagination()`: decode the current query string; if the page is
greater than 1 and the whole visible page was selected, navigate to
`page - 1` re-encoded; otherwise re-fetch the current page. -/
def adjustPagination (locationSearch : RawQuery)
    (selected credentials : List Credential) : PaginationEffect :=
  let params := parseQueryString QS_CONFIG locationSearch
  if params.page > 1 ∧ selected.length = credentials.length then
    PaginationEffect.navigate
      (encodeNonDefaultQueryString QS_CONFIG
        (replaceParams params { page := some (params.page - 1) }))
  else
    PaginationEffect.refetch

/-- The component state that the deletion workflow touches. -/
structure ComponentState where
  selected : List Credential
  fetchState : RequestState ViewModel
  deletionError : Option ApiError
  showDeletionError : Bool
  locationSearch : RawQuery
deriving DecidableEq

/-- `handleDelete()`: await the deletion workflow; on success adjust
pagination and then clear the selection.  Modelled from the spec for the
failure path: the workflow's failure is recorded (opening the error modal
via the `deletionError` effect) and neither pagination adjustment nor
selection clearing happens. -/
def handleDelete (destroy : Nat → Except ApiError Unit) (st : ComponentState) :
    ComponentState × Option PaginationEffect :=
  match deleteCredentials destroy st.selected with
  | Except.error e =>
    ({ st with deletionError := some e, showDeletionError := true }, none)
  | Except.ok _ =>
    ({ st with deletionError := none, selected := [] },
      some (adjustPagination st.locationSearch st.selected
        st.fetchState.result.credentials))

/-- `handleSelectAll` as a state transition: the prior selection is
discarded wholesale. -/
def applySelectAll (st : ComponentState) (isSelected : Bool) : ComponentState :=
  { st with
    selected := handleSelectAll st.fetchState.result.credentials isSelected }

/-! ### Concrete sample values, used to instantiate the theorems -/

/-- A sample credential. -/
def sampleCredential : Credential :=
  { id := 1, name := "a" }

/-- The `useRequest` state of the list-fetch workflow at mount. -/
def initialRequestState : RequestState ViewModel :=
  { result := initialViewModel, error := none, isLoading := false }

/-- A sample component state with one selected credential. -/
def sampleState : ComponentState :=
  { selected := [sampleCredential]
    fetchState := initialRequestState
    deletionError := none
    showDeletionError := false
    locationSearch := [] }

/-- A destroy outcome map on which every delete call fails. -/
def failDestroy : Nat → Except ApiError Unit :=
  fun _ => Except.error { code := 7 }

/-- A destroy outcome map on which every delete call succeeds. -/
def okDestroy : Nat → Except ApiError Unit :=
  fun _ => Except.ok ()

/-! ### Helper lemmas -/

/-- The toggle guard of `handleSelect` tests for an id match in the selection. -/
lemma handleSelect_guard (sel : List Credential) (row : Credential) :
    sel.any (fun s => s.id == row.id) = true ↔ ∃ s ∈ sel, s.id = row.id := by
  simp [List.any_eq_true]

/-- `Promise.all` resolves exactly when every constituent resolves. -/
lemma promiseAll_isOk {α : Type} (os : List (Except ApiError α)) :
    (promiseAll os).isOk = true ↔ ∀ o ∈ os, o.isOk = true := by
  induction os with
  | nil => simp [promiseAll, Except.isOk, Except.toBool]
  | cons o os ih =>
    cases o with
    | ok a =>
      cases hrec : promiseAll os with
      | ok as =>
        rw [hrec] at ih
        simp_all [promiseAll, promiseCombine, hrec, Except.isOk, Except.toBool]
      | error e =>
        rw [hrec] at ih
        simp_all [promiseAll, promiseCombine, hrec, Except.isOk, Except.toBool]
    | error e =>
      simp [promiseAll, promiseCombine, Except.isOk, Except.toBool]

/-- A rejection of `Promise.all` is the rejection of one of its constituents. -/
lemma promiseAll_error {α : Type} (os : List (Except ApiError α)) (e : ApiError) :
    promiseAll os = Except.error e → Except.error e ∈ os := by
  induction os with
  | nil => simp [promiseAll]
  | cons o os ih =>
    cases o with
    | ok a =>
      cases hrec : promiseAll os with
      | ok as => simp [promiseAll, promiseCombine, hrec]
      | error e' =>
        simp only [promiseAll, promiseCombine, hrec]
        intro h
        cases h
        exact List.mem_cons_of_mem _ (ih hrec)
    | error e' =>
      simp only [promiseAll, promiseCombine]
      intro h
      cases h
      exact List.mem_cons_self _ _

/-- On success, `Promise.all` returns one value per constituent. -/
lemma promiseAll_ok_length {α : Type} (os : List (Except ApiError α))
    (as : List α) : promiseAll os = Except.ok as → as.length = os.length := by
  induction os generalizing as with
  | nil =>
    simp only [promiseAll]
    intro h
    cases h
    rfl
  | cons o os ih =>
    cases o with
    | ok a =>
      cases hrec : promiseAll os with
      | ok as' =>
        simp only [promiseAll, promiseCombine, hrec]
        intro h
        cases h
        simp [ih as' hrec]
      | error e => simp [promiseAll, promiseCombine, hrec]
    | error e => simp [promiseAll, promiseCombine]

/-! ### Claim theorems -/

/-- C7: `canAdd` is true iff the actions mapping is present and contains the
key `POST`; an absent mapping, an empty mapping, or a mapping with only
other verbs yields false. -/
theorem canAdd_iff (a : Option (List String)) :
    (canAdd a = true ↔ ∃ ks, a = some ks ∧ "POST" ∈ ks)
    ∧ canAdd none = false
    ∧ canAdd (some []) = false
    ∧ (∀ ks, "POST" ∉ ks → canAdd (some ks) = false) := by
  refine ⟨?_, rfl, rfl, ?_⟩
  · cases a with
    | none => simp [canAdd]
    | some ks => simp [canAdd]
  · intro ks hks
    simpa [canAdd] using hks

/-- C9: `handleSelectAll(true)` replaces the selection with the full
currently loaded credential sequence and `handleSelectAll(false)` empties
it, regardless of the prior selection. -/
theorem handleSelectAll_spec (st : ComponentState) :
    (applySelectAll st true).selected = st.fetchState.result.credentials
    ∧ (applySelectAll st false).selected = [] := by
  constructor <;> rfl

/-- C6: `isAllSelected` is true iff the selection is non-empty and its size
equals the number of loaded credentials.  It is a size comparison (any
equally sized selection gives the same answer); selecting all loaded rows
of a non-empty page via select-all makes it true, and removing any one
loaded row from that selection makes it false. -/
theorem isAllSelected_iff (sel creds : List Credential) (row : Credential) :
    (isAllSelected sel creds = true ↔ sel ≠ [] ∧ sel.length = creds.length)
    ∧ (∀ sel' : List Credential, sel'.length = sel.length →
        isAllSelected sel' creds = isAllSelected sel creds)
    ∧ (creds ≠ [] → isAllSelected (handleSelectAll creds true) creds = true)
    ∧ (row ∈ creds →
        isAllSelected (handleSelect (handleSelectAll creds true) row) creds
          = false) := by
  refine ⟨?_, ?_, ?_, ?_⟩
  · simp [isAllSelected, List.length_pos]
  · intro sel' h
    simp [isAllSelected, h]
  · intro h
    simp [isAllSelected, handleSelectAll, List.length_pos, h]
  · intro h
    have hguard : creds.any (fun s => s.id == row.id) = true :=
      List.any_eq_true.mpr ⟨row, h, by simp⟩
    have hlt : (creds.filter (fun s => !(s.id == row.id))).length <
        creds.length :=
      List.length_filter_lt_length_iff_exists.mpr ⟨row, h, by simp⟩
    simp only [handleSelectAll, if_pos, handleSelect, hguard, if_true,
      isAllSelected]
    have hne : ((creds.filter (fun s => !(s.id == row.id))).length ==
        creds.length) = false := by
      simpa using Nat.ne_of_lt hlt
    simp [hne]

/-- C8: `handleSelect(row)` toggles membership by id equality only: when
some selected item shares `row`'s id every such item is removed, otherwise
`row` is appended; fields other than `id` do not influence the resulting id
sequence; and entries with other ids are unchanged in both branches. -/
theorem handleSelect_toggles_by_id (sel : List Credential)
    (row row' : Credential) :
    ((∃ s ∈ sel, s.id = row.id) →
        ∀ s ∈ handleSelect sel row, s.id ≠ row.id)
    ∧ ((∀ s ∈ sel, s.id ≠ row.id) → handleSelect sel row = sel ++ [row])
    ∧ (row'.id = row.id →
        (handleSelect sel row).map (fun s => s.id)
          = (handleSelect sel row').map (fun s => s.id))
    ∧ (handleSelect sel row).filter (fun s => !(s.id == row.id))
        = sel.filter (fun s => !(s.id == row.id)) := by
  refine ⟨?_, ?_, ?_, ?_⟩
  · intro hex s hs
    have hguard := (handleSelect_guard sel row).mpr hex
    rw [handleSelect, if_pos hguard] at hs
    have := List.of_mem_filter hs
    simpa using this
  · intro hall
    have hguard : sel.any (fun s => s.id == row.id) = false := by
      rw [List.any_eq_false]
      intro s hs
      simpa using hall s hs
    rw [handleSelect, hguard]
    simp
  · intro hid
    have hfun : (fun s : Credential => s.id == row'.id)
        = (fun s : Credential => s.id == row.id) := by
      funext s
      rw [hid]
    have hfun' : (fun s : Credential => !(s.id == row'.id))
        = (fun s : Credential => !(s.id == row.id)) := by
      funext s
      rw [hid]
    rw [handleSelect, handleSelect, hfun, hfun']
    by_cases hguard : sel.any (fun s => s.id == row.id) = true
    · rw [if_pos hguard, if_pos hguard]
    · rw [if_neg hguard, if_neg hguard]
      simp [hid]
  · by_cases hguard : sel.any (fun s => s.id == row.id) = true
    · rw [handleSelect, if_pos hguard, List.filter_filter]
      simp
    · rw [handleSelect, if_neg hguard, List.filter_append]
      simp

/-- C10: toggling the same row twice returns to the original selection, as
a set of ids, whenever the selection has at most one entry per id. -/
theorem handleSelect_involution (sel : List Credential) (row : Credential)
    (_h : (sel.map (fun s => s.id)).Nodup) :
    ∀ i, i ∈ (handleSelect (handleSelect sel row) row).map (fun s => s.id)
        ↔ i ∈ sel.map (fun s => s.id) := by
  intro i
  by_cases hguard : sel.any (fun s => s.id == row.id) = true
  · obtain ⟨s0, hs0, hid0⟩ := (handleSelect_guard sel row).mp hguard
    have h1 : handleSelect sel row = sel.filter (fun s => !(s.id == row.id)) := by
      rw [handleSelect, if_pos hguard]
    have hguard2 : ((sel.filter (fun s => !(s.id == row.id))).any
        (fun s => s.id == row.id)) = false := by
      rw [List.any_eq_false]
      intro s hs
      have := List.of_mem_filter hs
      simpa using this
    have h2 : handleSelect (handleSelect sel row) row
        = sel.filter (fun s => !(s.id == row.id)) ++ [row] := by
      rw [h1, handleSelect, hguard2]
      simp
    rw [h2]
    simp only [List.map_append, List.map_cons, List.map_nil,
      List.mem_append, List.mem_map, List.mem_filter, List.mem_singleton]
    constructor
    · rintro (⟨s, ⟨hs, _⟩, rfl⟩ | rfl)
      · exact ⟨s, hs, rfl⟩
      · exact ⟨s0, hs0, hid0⟩
    · rintro ⟨s, hs, rfl⟩
      by_cases hsr : s.id = row.id
      · exact Or.inr hsr
      · exact Or.inl ⟨s, ⟨hs, by simpa using hsr⟩, rfl⟩
  · have hall : ∀ s ∈ sel, ¬s.id = row.id := by
      intro s hs
      by_contra hc
      exact hguard (List.any_eq_true.mpr ⟨s, hs, by simpa using hc⟩)
    have h1 : handleSelect sel row = sel ++ [row] := by
      rw [handleSelect, if_neg hguard]
    have hguard2 : (sel ++ [row]).any (fun s => s.id == row.id) = true := by
      apply List.any_eq_true.mpr
      exact ⟨row, by simp, by simp⟩
    have h2 : handleSelect (handleSelect sel row) row
        = (sel ++ [row]).filter (fun s => !(s.id == row.id)) := by
      rw [h1, handleSelect, if_pos hguard2]
    have h3 : (sel ++ [row]).filter (fun s => !(s.id == row.id)) = sel := by
      rw [List.filter_append]
      have : sel.filter (fun s => !(s.id == row.id)) = sel :=
        List.filter_eq_self.mpr (fun s hs => by simpa using hall s hs)
      simp [this]
    rw [h2, h3]

/-- C5: decoding the query string produced by encoding a valid descriptor
yields the descriptor again once the component's defaults
`{page: 1, page_size: 20, order_by: "name"}` are filled in. -/
theorem parse_encode_roundtrip (d : QueryDescriptor)
    (_h1 : 1 ≤ d.page) (_h2 : 0 < d.page_size) :
    parseQueryString QS_CONFIG (encodeNonDefaultQueryString QS_CONFIG d) = d := by
  obtain ⟨p, s, o⟩ := d
  by_cases hp : p = 1 <;> by_cases hs : s = 20 <;> by_cases ho : o = "name" <;>
    simp_all [parseQueryString, encodeNonDefaultQueryString, QS_CONFIG,
      getQSConfig, qsKey, List.lookup]

/-- C1: `adjustPagination` navigates to `page - 1` (re-encoded) exactly when
the page decoded from the current URL is greater than 1 and the selection
size equals the number of loaded credentials, and re-invokes the fetch for
the current page in every other state. -/
theorem adjustPagination_branches (loc : RawQuery)
    (sel creds : List Credential) :
    ((parseQueryString QS_CONFIG loc).page > 1 ∧ sel.length = creds.length →
      adjustPagination loc sel creds
        = PaginationEffect.navigate
            (encodeNonDefaultQueryString QS_CONFIG
              (replaceParams (parseQueryString QS_CONFIG loc)
                { page := some ((parseQueryString QS_CONFIG loc).page - 1) })))
    ∧ (¬((parseQueryString QS_CONFIG loc).page > 1 ∧
          sel.length = creds.length) →
      adjustPagination loc sel creds = PaginationEffect.refetch) := by
  constructor
  · intro h
    simp only [adjustPagination]
    rw [if_pos h]
  · intro h
    simp only [adjustPagination]
    rw [if_neg h]

/-- C4: the deletion workflow issues exactly one delete request per selected
credential, keyed by id; it resolves (with one response per request) only
when all succeed, and rejects with the error of one of the individual
requests when any fails, tracking nothing else about partial success. -/
theorem deleteCredentials_one_request_per_selected
    (destroy : Nat → Except ApiError Unit) (sel : List Credential) :
    (issuedDeleteRequests sel).length = sel.length
    ∧ (∀ c ∈ sel, c.id ∈ issuedDeleteRequests sel)
    ∧ ((deleteCredentials destroy sel).isOk = true ↔
        ∀ c ∈ sel, (destroy c.id).isOk = true)
    ∧ (∀ us, deleteCredentials destroy sel = Except.ok us →
        us.length = sel.length)
    ∧ (∀ e, deleteCredentials destroy sel = Except.error e →
        ∃ c ∈ sel, destroy c.id = Except.error e) := by
  refine ⟨?_, ?_, ?_, ?_, ?_⟩
  · simp [issuedDeleteRequests]
  · intro c hc
    exact List.mem_map_of_mem _ hc
  · rw [deleteCredentials, promiseAll_isOk]
    constructor
    · intro hall c hc
      exact hall _ (List.mem_map_of_mem destroy (List.mem_map_of_mem _ hc))
    · intro hall o ho
      obtain ⟨i, hi, rfl⟩ := List.mem_map.mp ho
      obtain ⟨c, hc, rfl⟩ := List.mem_map.mp hi
      exact hall c hc
  · intro us h
    have hlen := promiseAll_ok_length _ us h
    simpa [issuedDeleteRequests] using hlen
  · intro e h
    have hmem := promiseAll_error _ e h
    obtain ⟨i, hi, hoi⟩ := List.mem_map.mp hmem
    obtain ⟨c, hc, rfl⟩ := List.mem_map.mp hi
    exact ⟨c, hc, hoi⟩

/-- C2: a failed deletion run leaves the selection set exactly as it was;
only a fully successful run clears it to empty. -/
theorem handleDelete_preserves_selection_on_failure
    (destroy : Nat → Except ApiError Unit) (st : ComponentState) :
    ((∃ c ∈ st.selected, (destroy c.id).isOk = false) →
      (handleDelete destroy st).1.selected = st.selected)
    ∧ ((∀ c ∈ st.selected, (destroy c.id).isOk = true) →
      (handleDelete destroy st).1.selected = []) := by
  constructor
  · intro hex
    cases hdel : deleteCredentials destroy st.selected with
    | error e => simp [handleDelete, hdel]
    | ok v =>
      exfalso
      obtain ⟨c, hc, hfail⟩ := hex
      have hok : (deleteCredentials destroy st.selected).isOk = true := by
        rw [hdel]
        rfl
      rw [deleteCredentials] at hok
      have hall := (promiseAll_isOk _).mp hok
      have hco := hall (destroy c.id)
        (List.mem_map_of_mem destroy (List.mem_map_of_mem _ hc))
      rw [hfail] at hco
      exact Bool.false_ne_true hco
  · intro hall
    cases hdel : deleteCredentials destroy st.selected with
    | error e =>
      exfalso
      have hmem := promiseAll_error _ e hdel
      obtain ⟨i, hi, hoi⟩ := List.mem_map.mp hmem
      obtain ⟨c, hc, rfl⟩ := List.mem_map.mp hi
      have hfalse := hall c hc
      rw [hoi] at hfalse
      simp [Except.isOk, Except.toBool] at hfalse
    | ok v => simp [handleDelete, hdel]

/-- C3: when either read of the list-fetch workflow fails, the workflow
fails with that error, the error is recorded as the content error, and the
view model is left exactly as it was. -/
theorem fetchCredentials_failure_leaves_view_model
    (read : Except ApiError CredsData)
    (readOptions : Except ApiError ActionsData)
    (st : RequestState ViewModel)
    (h : read.isOk = false ∨ readOptions.isOk = false) :
    ∃ e, fetchCredentials read readOptions = Except.error e
      ∧ (read = Except.error e ∨ readOptions = Except.error e)
      ∧ applyRequest st (fetchCredentials read readOptions)
          = { st with error := some e, isLoading := false }
      ∧ (applyRequest st (fetchCredentials read readOptions)).result
          = st.result := by
  cases read with
  | error e =>
    exact ⟨e, rfl, Or.inl rfl, rfl, rfl⟩
  | ok creds =>
    cases readOptions with
    | error e =>
      exact ⟨e, rfl, Or.inr rfl, rfl, rfl⟩
    | ok acts =>
      exfalso
      simp [Except.isOk, Except.toBool] at h

/-! ### Witnesses: the theorems instantiated at concrete inputs -/

/-- Witness for C7: a mapping with only `GET` does not allow adding. -/
theorem canAdd_iff_witness :
    "POST" ∉ (["GET"] : List String) ∧ canAdd (some ["GET"]) = false :=
  ⟨by decide, (canAdd_iff (some ["GET"])).2.2.2 ["GET"] (by decide)⟩

/-- Witness for C6: selecting the single loaded credential via select-all
makes `isAllSelected` true, and toggling it off again makes it false. -/
theorem isAllSelected_iff_witness :
    ([sampleCredential] : List Credential) ≠ []
    ∧ sampleCredential ∈ [sampleCredential]
    ∧ isAllSelected (handleSelectAll [sampleCredential] true)
        [sampleCredential] = true
    ∧ isAllSelected
        (handleSelect (handleSelectAll [sampleCredential] true)
          sampleCredential)
        [sampleCredential] = false :=
  ⟨by decide, by decide,
    (isAllSelected_iff [sampleCredential] [sampleCredential]
      sampleCredential).2.2.1 (by decide),
    (isAllSelected_iff [sampleCredential] [sampleCredential]
      sampleCredential).2.2.2 (by decide)⟩

/-- Witness for C8: a row with a fresh id is appended to the selection. -/
theorem handleSelect_toggles_by_id_witness :
    (∀ s ∈ [sampleCredential], s.id ≠ (⟨2, "b"⟩ : Credential).id)
    ∧ handleSelect [sampleCredential] ⟨2, "b"⟩
        = [sampleCredential] ++ [⟨2, "b"⟩] :=
  ⟨by decide,
    (handleSelect_toggles_by_id [sampleCredential] ⟨2, "b"⟩ ⟨2, "b"⟩).2.1
      (by decide)⟩

/-- Witness for C10: toggling the single selected credential twice restores
its id to the selection. -/
theorem handleSelect_involution_witness :
    (([sampleCredential].map (fun s => s.id)).Nodup)
    ∧ (1 ∈ (handleSelect (handleSelect [sampleCredential] sampleCredential)
          sampleCredential).map (fun s => s.id)
        ↔ 1 ∈ [sampleCredential].map (fun s => s.id)) :=
  ⟨by decide,
    handleSelect_involution [sampleCredential] sampleCredential (by decide) 1⟩

/-- Witness for C5: the non-default descriptor `{page 2, page_size 5,
order_by "id"}` survives the encode/decode round trip. -/
theorem parse_encode_roundtrip_witness :
    1 ≤ (2 : Nat) ∧ 0 < (5 : Nat)
    ∧ parseQueryString QS_CONFIG
        (encodeNonDefaultQueryString QS_CONFIG
          { page := 2, page_size := 5, order_by := "id" })
      = { page := 2, page_size := 5, order_by := "id" } :=
  ⟨by decide, by decide,
    parse_encode_roundtrip { page := 2, page_size := 5, order_by := "id" }
      (by decide) (by decide)⟩

/-- Witness for C1: on page 2 with the whole loaded page selected,
`adjustPagination` navigates to page 1. -/
theorem adjustPagination_branches_witness :
    ((parseQueryString QS_CONFIG
        [("credential.page", QSValue.int 2)]).page > 1
      ∧ ([sampleCredential] : List Credential).length
          = ([sampleCredential] : List Credential).length)
    ∧ adjustPagination [("credential.page", QSValue.int 2)]
        [sampleCredential] [sampleCredential]
        = PaginationEffect.navigate
            (encodeNonDefaultQueryString QS_CONFIG
              (replaceParams
                (parseQueryString QS_CONFIG
                  [("credential.page", QSValue.int 2)])
                { page := some ((parseQueryString QS_CONFIG
                    [("credential.page", QSValue.int 2)]).page - 1) })) :=
  ⟨by decide,
    (adjustPagination_branches [("credential.page", QSValue.int 2)]
      [sampleCredential] [sampleCredential]).1 (by decide)⟩

/-- Witness for C4: with every delete call failing, the single-element
selection rejects with that error, which belongs to a selected credential. -/
theorem deleteCredentials_one_request_per_selected_witness :
    deleteCredentials failDestroy [sampleCredential]
        = Except.error { code := 7 }
    ∧ ∃ c ∈ [sampleCredential], failDestroy c.id
        = Except.error { code := 7 } :=
  ⟨rfl,
    (deleteCredentials_one_request_per_selected failDestroy
      [sampleCredential]).2.2.2.2 { code := 7 } rfl⟩

/-- Witness for C2: a failing delete call leaves the selection untouched. -/
theorem handleDelete_preserves_selection_on_failure_witness :
    (∃ c ∈ sampleState.selected, (failDestroy c.id).isOk = false)
    ∧ (handleDelete failDestroy sampleState).1.selected
        = sampleState.selected :=
  ⟨by decide,
    (handleDelete_preserves_selection_on_failure failDestroy sampleState).1
      (by decide)⟩

/-- Witness for C3: a failing list read on the freshly mounted state keeps
the initial empty view model and records the error. -/
theorem fetchCredentials_failure_leaves_view_model_witness :
    ((Except.error { code := 7 } : Except ApiError CredsData).isOk = false
      ∨ (Except.ok { actions := some [] } :
          Except ApiError ActionsData).isOk = false)
    ∧ ∃ e, fetchCredentials (Except.error { code := 7 })
          (Except.ok { actions := some [] }) = Except.error e
        ∧ ((Except.error { code := 7 } : Except ApiError CredsData)
              = Except.error e
            ∨ (Except.ok { actions := some [] } :
                Except ApiError ActionsData) = Except.error e)
        ∧ applyRequest initialRequestState
            (fetchCredentials (Except.error { code := 7 })
              (Except.ok { actions := some [] }))
            = { initialRequestState with
                error := some e, isLoading := false }
        ∧ (applyRequest initialRequestState
            (fetchCredentials (Except.error { code := 7 })
              (Except.ok { actions := some [] }))).result
            = initialRequestState.result :=
  ⟨Or.inl rfl,
    fetchCredentials_failure_leaves_view_model (Except.error { code := 7 })
      (Except.ok { actions := some [] }) initialRequestState (Or.inl rfl)⟩

end CredentialList
